import Mathlib

/-!
Verification of the executor repository (TypeScript sources `src/kraken.ts`,
`src/tradingview.ts`, `src/index.ts`, `src/types.ts`) against its
natural-language specification.

The development is a shallow embedding: the numeric computations, branch
structure and early returns of the source are translated into executable Lean
definitions.  JavaScript numbers that can be `NaN` (results of `parseFloat`)
are modelled as `Option ℚ` (`none` = `NaN`); every other number is a plain
`ℚ`.  Interactions with the browser page are modelled by an environment
record `PageEnv` that holds exactly the values the source reads back from the
page (the return values of its `page.evaluate` / `page.$` calls), plus a
fault-injection map `faults : Step → Option String` that makes an interaction
step raise an exception with the given message, mirroring the fact that every
CDP operation in the source can throw.  The observable UI interactions
(clicks, typing, reload, poll ticks, browser restarts) are recorded in an
event trace `List Ev`.
-/

namespace Executor

/- The Batteries rational-number operations are marked irreducible, which
blocks `decide`/`rfl` evaluation of the executable model on concrete inputs;
restore the default transparency locally. -/
attribute [local semireducible] Rat.add Rat.mul Rat.sub Rat.inv Rat.ofScientific

set_option maxRecDepth 8000

/-- Decidable equality on `Except`, for evaluating the model's results on
concrete inputs. -/
instance instDecEqExcept {e a : Type} [DecidableEq e] [DecidableEq a] :
    DecidableEq (Except e a) := fun x y =>
  match x, y with
  | .ok v, .ok w => if h : v = w then isTrue (by rw [h]) else isFalse (by simp [h])
  | .error v, .error w => if h : v = w then isTrue (by rw [h]) else isFalse (by simp [h])
  | .ok _, .error _ => isFalse (by simp)
  | .error _, .ok _ => isFalse (by simp)

/-! ## Small string utilities (JS semantics helpers) -/

/-- Character-list prefix test: `leadsWith pat l` is true when `pat` is an
initial segment of `l`. -/
def leadsWith : List Char → List Char → Bool
  | [], _ => true
  | _ :: _, [] => false
  | p :: ps, c :: cs => p == c && leadsWith ps cs

/-- Substring search on character lists. -/
def containsSub : List Char → List Char → Bool
  | [], pat => pat.isEmpty
  | c :: cs, pat => leadsWith pat (c :: cs) || containsSub cs pat

/-- JS `String.prototype.includes`. -/
def strIncludes (s pat : String) : Bool :=
  containsSub s.data pat.data

/-- JS regex `.replace(/,/g, '')`. -/
def stripCommas (s : String) : String :=
  String.mk (s.data.filter (fun c => ¬ (c == ',')))

/-- JS regex `.replace(/[^\d.-]/g, '')` (also used for `[^0-9.-]`). -/
def keepNumChars (s : String) : String :=
  String.mk (s.data.filter (fun c => c.isDigit || c == '.' || c == '-'))

/-- JS regex `.replace(/[^0-9.]/g, '')`. -/
def keepDigitsDot (s : String) : String :=
  String.mk (s.data.filter (fun c => c.isDigit || c == '.'))

/-- JS truthiness of an optional string (`undefined`/`null`/`""` are falsy). -/
def strTruthy : Option String → Bool
  | some t => ¬ (t == "")
  | none => false

/-! ## JS numbers

`JsNum` models a JavaScript number that may be `NaN`: `none` is `NaN`.
Infinities do not arise in the modelled computations (divisors are the
positive constants 100 and the per-contract margin guarded by `price > 0`),
and the string `"Infinity"` is treated as unparseable. -/

abbrev JsNum := Option ℚ

/-- JS `x || c` for a number `x` and non-NaN constant `c` (`NaN` and `0` are
falsy). -/
def jsOrC : JsNum → ℚ → ℚ
  | some v, y => if v = 0 then y else v
  | none, y => y

/-- JS `x || y` for numbers (`NaN` and `0` are falsy). -/
def jsOr : JsNum → JsNum → JsNum
  | some v, y => if v = 0 then y else some v
  | none, y => y

/-- Multiplication by a constant; `NaN` propagates. -/
def jsMulC : JsNum → ℚ → JsNum
  | some v, c => some (v * c)
  | none, _ => none

/-- Multiplication; `NaN` propagates. -/
def jsMul : JsNum → JsNum → JsNum
  | some a, some b => some (a * b)
  | _, _ => none

/-- Division by a constant (non-zero at every use site); `NaN` propagates. -/
def jsDivC : JsNum → ℚ → JsNum
  | some v, c => some (v / c)
  | none, _ => none

/-- JS `Math.floor`; `NaN` propagates. -/
def jsFloorQ : JsNum → JsNum
  | some v => some ((⌊v⌋ : ℤ) : ℚ)
  | none => none

/-- JS `>` comparison: any comparison with `NaN` is false. -/
def jsGt : JsNum → JsNum → Bool
  | some a, some b => decide (b < a)
  | _, _ => false

/-- JS `=== 0` test: false for `NaN`. -/
def jsEqZero : JsNum → Bool
  | some v => decide (v = 0)
  | none => false

/-! ## JS `parseFloat`

Models `parseFloat(s)`: skip leading whitespace, optional sign, then the
longest prefix of the form `digits[.digits][exponent]` or `.digits[exponent]`;
`none` models `NaN` (no parsable numeric prefix).  The special literal
`Infinity` is not modelled (it never occurs in the parsed UI texts). -/

def digToNat (c : Char) : Nat := c.toNat - 48

/-- Split off the longest digit prefix. -/
def readDigits : List Char → List Char × List Char
  | [] => ([], [])
  | c :: cs =>
    if c.isDigit then
      let r := readDigits cs
      (c :: r.1, r.2)
    else ([], c :: cs)

def natOfDigits (l : List Char) : Nat :=
  l.foldl (fun a c => a * 10 + digToNat c) 0

def fracOfDigits (l : List Char) : ℚ :=
  (natOfDigits l : ℚ) / ((10 : ℚ) ^ l.length)

def qpow10 : ℤ → ℚ
  | .ofNat n => (10 : ℚ) ^ n
  | .negSucc n => 1 / (10 : ℚ) ^ (n + 1)

/-- Parse an optional exponent (`e`/`E`, optional sign, digits); `none` when
there is no well-formed exponent (in which case `parseFloat` ignores it). -/
def expVal (l : List Char) : Option ℤ :=
  match l with
  | 'e' :: r => expValSigned r
  | 'E' :: r => expValSigned r
  | _ => none
where
  expValSigned : List Char → Option ℤ
    | '+' :: r => expValDigits r
    | '-' :: r => (expValDigits r).map (fun n => -n)
    | r => expValDigits r
  expValDigits (r : List Char) : Option ℤ :=
    let d := readDigits r
    if d.1.isEmpty then none else some (natOfDigits d.1 : ℤ)

/-- Apply a trailing exponent to a parsed mantissa. -/
def applyExp (v : ℚ) (l : List Char) : ℚ :=
  match expVal l with
  | some e => v * qpow10 e
  | none => v

def jsParseFloat (s : String) : JsNum :=
  let l := s.data.dropWhile Char.isWhitespace
  let sl : ℚ × List Char :=
    match l with
    | '+' :: r => (1, r)
    | '-' :: r => (-1, r)
    | _ => (1, l)
  let ip := readDigits sl.2
  match ip.2 with
  | '.' :: r2 =>
    let fp := readDigits r2
    if ip.1.isEmpty && fp.1.isEmpty then none
    else some (sl.1 * applyExp ((natOfDigits ip.1 : ℚ) + fracOfDigits fp.1) fp.2)
  | rest =>
    if ip.1.isEmpty then none
    else some (sl.1 * applyExp (natOfDigits ip.1 : ℚ) rest)

/-! ## Date parsing for order-history timestamps

`src/tradingview.ts` lines 1616-1620 parse the history cell text (format
`"YYYY-MM-DD HH:MM:SS"`, per the comment in the source) with
`new Date(text.replace(' ', 'T') + 'Z')` and take the epoch time.  We model
exactly that documented format; any other text yields `none` (JS
`Invalid Date`, whose `getTime()` is `NaN` and therefore never "recent"). -/

def isLeapYear (y : ℕ) : Bool :=
  (y % 4 == 0 && ¬ (y % 100 == 0)) || y % 400 == 0

def daysInMonth (y m : ℕ) : ℕ :=
  if m = 2 then (if isLeapYear y then 29 else 28)
  else if m = 4 ∨ m = 6 ∨ m = 9 ∨ m = 11 then 30
  else 31

/-- Days from 1970-01-01 to year `y`, month `m`, day `d` (civil-calendar
algorithm, valid for the four-digit years the format admits). -/
def daysFromCivil (y m d : ℕ) : ℤ :=
  let yy : ℤ := if m ≤ 2 then (y : ℤ) - 1 else (y : ℤ)
  let era : ℤ := Int.fdiv yy 400
  let yoe : ℤ := yy - era * 400
  let mp : ℤ := ((m : ℤ) + 9) % 12
  let doy : ℤ := Int.fdiv (153 * mp + 2) 5 + (d : ℤ) - 1
  let doe : ℤ := yoe * 365 + Int.fdiv yoe 4 - Int.fdiv yoe 100 + doy
  era * 146097 + doe - 719468

/-- Epoch milliseconds of a `"YYYY-MM-DD HH:MM:SS"` text, or `none` when the
text is not a valid timestamp of that shape. -/
def parseTvTime (s : String) : Option ℚ :=
  match s.data with
  | [y1, y2, y3, y4, '-', m1, m2, '-', d1, d2, ' ', h1, h2, ':', n1, n2, ':', s1, s2] =>
    if [y1, y2, y3, y4, m1, m2, d1, d2, h1, h2, n1, n2, s1, s2].all Char.isDigit then
      let y := natOfDigits [y1, y2, y3, y4]
      let mo := natOfDigits [m1, m2]
      let d := natOfDigits [d1, d2]
      let h := natOfDigits [h1, h2]
      let mi := natOfDigits [n1, n2]
      let se := natOfDigits [s1, s2]
      if 1 ≤ mo ∧ mo ≤ 12 ∧ 1 ≤ d ∧ d ≤ daysInMonth y mo ∧ h ≤ 23 ∧ mi ≤ 59 ∧ se ≤ 59 then
        some ((((daysFromCivil y mo d) * 86400 + (h : ℤ) * 3600 + (mi : ℤ) * 60 + (se : ℤ)) * 1000 : ℤ) : ℚ)
      else none
    else none
  | _ => none

/-! ## Kraken Futures client (`src/kraken.ts`)

The signed-REST client is an external-backend collaborator; the claims about
it concern `generateAuth` (lines 41-69) and `mapSymbol` (lines 215-237).
The cryptographic primitives (`crypto.createHash("sha256")`,
`crypto.createHmac("sha512", ...)`, base64 `Buffer` codecs) are Node library
functions, not code of this repository, so `generateAuth` is parameterised
over them; bytes are modelled as `List ℕ`. -/

structure AuthHeaders where
  APIKey : String
  Authent : String
  Nonce : String
deriving DecidableEq, Repr

/-- `KrakenFuturesClient.generateAuth` (`src/kraken.ts` lines 41-69):
1. concatenate `postData + nonce + endpointPath`;
2. SHA-256 hash it;
3. base64-decode the API secret;
4. HMAC-SHA512 the hash with the decoded secret as key;
5. base64-encode the digest. -/
def generateAuth
    (sha256 : String → List ℕ)
    (hmacSha512 : List ℕ → List ℕ → List ℕ)
    (base64Encode : List ℕ → String)
    (base64Decode : String → List ℕ)
    (apiKey apiSecret : String)
    (endpointPath postData nonce : String) : AuthHeaders :=
  let message := postData ++ nonce ++ endpointPath
  let sha256Hash := sha256 message
  let secretBuffer := base64Decode apiSecret
  let hmacDigest := hmacSha512 secretBuffer sha256Hash
  let authent := base64Encode hmacDigest
  { APIKey := apiKey, Authent := authent, Nonce := nonce }

/-- `SYMBOL_MAP` (`src/kraken.ts` lines 215-226): the ten supported
Bybit-to-Kraken-Futures symbol pairs. -/
def SYMBOL_MAP : List (String × String) :=
  [("BTCUSDT", "PF_XBTUSD"),
   ("ETHUSDT", "PF_ETHUSD"),
   ("SOLUSDT", "PF_SOLUSD"),
   ("XRPUSDT", "PF_XRPUSD"),
   ("DOGEUSDT", "PF_DOGEUSD"),
   ("ADAUSDT", "PF_ADAUSD"),
   ("LINKUSDT", "PF_LINKUSD"),
   ("AVAXUSDT", "PF_AVAXUSD"),
   ("MATICUSDT", "PF_MATICUSD"),
   ("DOTUSDT", "PF_DOTUSD")]

/-- JS plain-object property read `m[k]` for a string-valued record literal
(the keys of `SYMBOL_MAP` are distinct, so first match suffices). -/
def recordGet (m : List (String × String)) (k : String) : Option String :=
  (m.find? (fun kv => kv.1 == k)).map (fun kv => kv.2)

/-- JS `String.prototype.toUpperCase`, restricted to the ASCII case mapping
(the symbol keys are ASCII; exotic Unicode case foldings are out of scope). -/
def toUpperAscii (s : String) : String :=
  String.mk (s.data.map Char.toUpper)

/-- `Object.keys(SYMBOL_MAP).join(", ")`. -/
def joinComma : List String → String
  | [] => ""
  | [x] => x
  | x :: xs => x ++ ", " ++ joinComma xs

/-- `mapSymbol` (`src/kraken.ts` lines 231-237): look up the uppercased input
in `SYMBOL_MAP`; throw (modelled as `Except.error`) on a falsy result, with a
message naming the unknown symbol and listing the supported keys. -/
def mapSymbol (bybitSymbol : String) : Except String String :=
  match recordGet SYMBOL_MAP (toUpperAscii bybitSymbol) with
  | some krakenSymbol => .ok krakenSymbol
  | none =>
    .error ("Unknown symbol: " ++ bybitSymbol ++ ". Supported: "
      ++ joinComma (SYMBOL_MAP.map (fun kv => kv.1)))

/-! ## Session establishment (`TradingViewClient.login`, `src/tradingview.ts`)

`login` (lines 224-344) together with `checkIfLoggedIn` (lines 188-219) is
the Session Manager's establishment step.  The environment holds what the
page yields at each read; `loginFaults` injects the exceptions the unguarded
`page.goto`/`waitForSelector` calls can raise (the calls at lines 241, 262,
271 and 280 are not wrapped in try/catch and so propagate). -/

inductive LStep where
  | navigateSignin
  | waitEmailField
  | waitPasswordField
  | waitSubmitButton
deriving DecidableEq, Repr

structure CookieInfo where
  value : String
  expires : Option ℚ
deriving DecidableEq, Repr

structure LoginEnv where
  hasPage : Bool := true
  cookieReadFails : Bool := false
  sessionCookie : Option CookieInfo := none
  nowSec : ℚ := 0
  loginFaults : LStep → Option String := fun _ => none
  captchaPresent : Bool := false
  captchaRaceWon : Bool := false
  userMenuAppears : Bool := false

/-- Which evidence made `login` conclude it is logged in. -/
inductive LoginVia where
  | cookieFast
  | captchaRace
  | userMenuVerified
  | optimistic
deriving DecidableEq, Repr

/-- `checkIfLoggedIn` (`src/tradingview.ts` lines 188-219): succeed when a
`sessionid` cookie with a truthy value is present and its `expires` field is
either absent/falsy or still in the future; any read error is caught and
yields `false`. -/
def checkIfLoggedIn (env : LoginEnv) : Bool :=
  if env.cookieReadFails then false
  else
    match env.sessionCookie with
    | some c =>
      if ¬ (c.value == "") then
        match c.expires with
        | some e => if e ≠ 0 then decide (env.nowSec < e) else true
        | none => true
      else false
    | none => false

def loginGate (env : LoginEnv) (s : LStep) (k : Except String (Bool × LoginVia)) :
    Except String (Bool × LoginVia) :=
  match env.loginFaults s with
  | some m => .error m
  | none => k

/-- `login` (`src/tradingview.ts` lines 224-344).  Control flow: throw when
the page is missing; accept the liveness cookie as a fast path; otherwise
drive the interactive form (the unguarded waits can throw); when a captcha is
present race its resolution and, on success, finish logged-in; in every other
case fall through to the user-menu verification, whose failure is caught and
replaced by the optimistic `isLoggedIn = true` (lines 340-343). -/
def login (env : LoginEnv) : Except String (Bool × LoginVia) :=
  if ¬ env.hasPage then .error "Browser not initialized"
  else if checkIfLoggedIn env then .ok (true, .cookieFast)
  else
    loginGate env .navigateSignin <|
    loginGate env .waitEmailField <|
    loginGate env .waitPasswordField <|
    loginGate env .waitSubmitButton <|
    if env.captchaPresent && env.captchaRaceWon then .ok (true, .captchaRace)
    else if env.userMenuAppears then .ok (true, .userMenuVerified)
    else .ok (true, .optimistic)

/-! ## Data model of the Execution Controller (`src/tradingview.ts`) -/

inductive Direction where
  | LONG
  | SHORT
deriving DecidableEq, Repr

/-- `OrderParams` (`src/tradingview.ts` lines 33-39). -/
structure OrderParams where
  symbol : Option String := none
  direction : Direction := .LONG
  quantity : ℚ := 1
  stopLoss : Option ℚ := none
  takeProfit : Option ℚ := none
deriving DecidableEq, Repr

/-- `ExecutionDetails` (`src/tradingview.ts` lines 41-51).  `entryPrice`,
`quantity` and `marginUsed` come from `parseFloat` chains and may be `NaN`,
hence `JsNum`. -/
structure ExecutionDetails where
  symbol : String
  side : Direction
  entryPrice : JsNum
  quantity : JsNum
  marginUsed : JsNum
  fee : ℚ
  takeProfit : Option ℚ
  stopLoss : Option ℚ
  timestamp : String
deriving DecidableEq, Repr

/-- `ExecutionResult` (`src/tradingview.ts` lines 53-58).  The accumulated
console log strings (`executionLogs`) are a diagnostic side channel and are
not modelled; the event trace returned alongside each run plays their role
for the observable interactions. -/
structure ExecutionResult where
  success : Bool
  error : Option String := none
  executionDetails : Option ExecutionDetails := none
deriving DecidableEq, Repr

/-- The record returned by the existing-position `page.evaluate`
(`src/tradingview.ts` lines 663-694): `none` when no position rows exist. -/
structure PositionInfo where
  count : ℕ
  rowId : String
  symbol : String
  side : String
  qty : String
  avgPrice : String
  pnl : String
deriving DecidableEq, Repr

/-- The record returned by the rejection-toast `page.evaluate`
(`src/tradingview.ts` lines 1261-1285): produced only when the toast header
contains `rejected`/`Rejected`. -/
structure RejectionInfo where
  header : String
  orderInfo : String
  reason : String
  symbol : String
deriving DecidableEq, Repr

/-- The first `Market`-type row found by the order-history `page.evaluate`
(`src/tradingview.ts` lines 1536-1561); `none` models `found: false`. -/
structure HistoryRow where
  marginText : Option String
  placingTime : Option String
deriving DecidableEq, Repr

/-- Interaction points of one placement attempt, in source order.  A fault
injected at a step models the exception an awaited page operation can raise
there. -/
inductive Step where
  | ensureConnection
  | dismissPromo
  | positionCheck
  | openOrderForm
  | readBalance
  | readPrice
  | clickDirection
  | clickMarketType
  | setQuantity
  | setTakeProfit
  | setStopLoss
  | clickPlace
  | prodPreview
  | postSubmitChecks
  | pollPosition (k : ℕ)
  | pollRejection (k : ℕ)
  | postWaitDump
  | resultsDiagnostics
  | readFilledQty
  | readHistory
  | readSummary
  | backToPositions
  | reloadPage
deriving DecidableEq, Repr

/-- Observable UI interactions recorded by the model. -/
inductive Ev where
  | attemptStart (isRetry : Bool)
  | restart
  | clickDirection
  | clickMarketType
  | typeQuantity
  | typeMargin
  | clickTpCheckbox
  | typeTakeProfit
  | clickSlCheckbox
  | typeStopLoss
  | clickPlaceOrder
  | clickSendOrder
  | pollTick (k : ℕ)
  | reloadPage
deriving DecidableEq, Repr

/-- Order-form interactions in the sense of the guard claim: direction click,
quantity/margin entry, TP/SL entry and submission. -/
def isFormEv : Ev → Bool
  | .clickDirection => true
  | .clickMarketType => true
  | .typeQuantity => true
  | .typeMargin => true
  | .clickTpCheckbox => true
  | .typeTakeProfit => true
  | .clickSlCheckbox => true
  | .typeStopLoss => true
  | .clickPlaceOrder => true
  | .clickSendOrder => true
  | _ => false

def isRestartEv : Ev → Bool
  | .restart => true
  | _ => false

def isStartEv : Ev → Bool
  | .attemptStart _ => true
  | _ => false

def isPollTickEv : Ev → Bool
  | .pollTick _ => true
  | _ => false

/-- What the page yields to each read of one placement attempt, at the level
of the source's `page.evaluate` / `page.$` return values, plus the
fault-injection map. -/
structure PageEnv where
  hasPage : Bool := true
  isProd : Bool := false
  isAlt : Bool := false
  faults : Step → Option String := fun _ => none
  existingPosition : Option PositionInfo := none
  balanceText : String := "0"
  priceText : String := "0"
  quantityFieldVisible : Bool := true
  marginFieldVisible : Bool := true
  qtyReadBackText : String := "0"
  qtyAfterMarginText : String := "0"
  tpCheckboxVisible : Bool := true
  tpFieldVisible : Bool := true
  slCheckboxVisible : Bool := true
  slFieldVisible : Bool := true
  feePreview : Option String := none
  sendOrderFound : Bool := true
  pollPositionRows : ℕ → Option PositionInfo := fun _ => none
  rejectionAt : ℕ → Option RejectionInfo := fun _ => none
  primaryAvgFillText : Option String := none
  fallbackAvgFillText : Option String := none
  positionRowCells : List (String × String) := []
  filledQtyText : Option String := none
  historyRow : Option HistoryRow := none
  summaryInitialMarginText : Option String := none
  nowMs : ℚ := 0
  timestampStr : String := ""

/-! ## Auto-sizing computations (`src/tradingview.ts` lines 726-813) -/

/-- `COINBASE_CONTRACT_SIZE` (line 23). -/
def COINBASE_CONTRACT_SIZE : ℚ := 0.1

/-- `COINBASE_LEVERAGE` (line 24). -/
def COINBASE_LEVERAGE : ℚ := 10

/-- `parseFloat(balanceRaw.text.replace(/,/g, '').replace(/[^\d.-]/g, ''))`
(line 761). -/
def parsedBalance (env : PageEnv) : JsNum :=
  jsParseFloat (keepNumChars (stripCommas env.balanceText))

/-- `parseFloat(priceRaw.text.replace(/,/g, '')) || 0` (line 781). -/
def prodCurrentPrice (env : PageEnv) : ℚ :=
  jsOrC (jsParseFloat (stripCommas env.priceText)) 0

/-- Prod-mode auto-sizing (lines 764-799): result is
`(marginAmount, autoCalculatedContracts)`.  When the price cannot be read the
source defaults to 1 contract and leaves `marginAmount` at 0. -/
def autoSizeProd (env : PageEnv) : JsNum × JsNum :=
  let balance := parsedBalance env
  let currentPrice := prodCurrentPrice env
  if 0 < currentPrice then
    let marginPerContract := currentPrice * COINBASE_CONTRACT_SIZE / COINBASE_LEVERAGE
    let availableMargin := jsMulC balance 0.90
    let contracts := jsFloorQ (jsDivC availableMargin marginPerContract)
    (jsMul contracts (some marginPerContract), contracts)
  else (some 0, some 1)

/-- Paper-trading auto-sizing (lines 800-812):
`marginAmount = Math.floor(balance * 0.90 * 100) / 100`, then capped at
`MAX_MARGIN = IS_ALT ? Infinity : 1000` (the `Infinity` cap never fires). -/
def computeMarginPaper (balance : JsNum) (isAlt : Bool) : JsNum :=
  let m := jsDivC (jsFloorQ (jsMulC (jsMulC balance 0.90) 100)) 100
  if isAlt then m
  else if jsGt m (some 1000) then some 1000 else m

/-- The `(marginAmount, autoCalculatedContracts)` pair in scope after the
auto-sizing block (lines 726-813): both stay 0 outside margin mode. -/
def sizedMarginContracts (env : PageEnv) (p : OrderParams) : JsNum × JsNum :=
  if p.quantity < 0 then
    if env.isProd then autoSizeProd env
    else (computeMarginPaper (parsedBalance env) env.isAlt, some 0)
  else (some 0, some 0)

/-! ## Quantity / TP / SL form entry (`src/tradingview.ts` lines 857-1023) -/

/-- The quantity-entry block (lines 857-936): returns the `actualQuantity`
in scope afterwards together with the typing interactions performed. -/
def enterQuantity (env : PageEnv) (p : OrderParams)
    (marginAmount autoContracts : JsNum) : JsNum × List Ev :=
  if p.quantity < 0 && env.isProd && jsGt autoContracts (some 0) then
    if env.quantityFieldVisible then
      (jsOr (jsParseFloat (stripCommas env.qtyReadBackText)) autoContracts,
       [Ev.typeQuantity])
    else (autoContracts, [])
  else if p.quantity < 0 && jsGt marginAmount (some 0) then
    (jsParseFloat (stripCommas env.qtyAfterMarginText),
     if env.marginFieldVisible then [Ev.typeMargin] else [])
  else if 0 < p.quantity then
    if env.quantityFieldVisible then
      (jsOr (jsParseFloat (stripCommas env.qtyReadBackText)) (some p.quantity),
       [Ev.typeQuantity])
    else (some p.quantity, [])
  else (some p.quantity, [])

/-- JS truthiness of `params.takeProfit` (line 939). -/
def tpRequested (p : OrderParams) : Bool :=
  match p.takeProfit with
  | some v => decide (v ≠ 0)
  | none => false

/-- JS truthiness of `params.stopLoss` (line 980). -/
def slRequested (p : OrderParams) : Bool :=
  match p.stopLoss with
  | some v => decide (v ≠ 0)
  | none => false

/-- Take-profit interactions (lines 939-977): checkbox click then price
entry, each skipped when its control is missing. -/
def tpEvents (env : PageEnv) (p : OrderParams) : List Ev :=
  if tpRequested p then
    (if env.tpCheckboxVisible then [Ev.clickTpCheckbox] else [])
      ++ (if env.tpFieldVisible then [Ev.typeTakeProfit] else [])
  else []

/-- Stop-loss interactions (lines 980-1023): in prod mode the checkbox click
is skipped (auto-enabled by TP), otherwise clicked when present. -/
def slEvents (env : PageEnv) (p : OrderParams) : List Ev :=
  if slRequested p then
    (if ¬ env.isProd && env.slCheckboxVisible then [Ev.clickSlCheckbox] else [])
      ++ (if env.slFieldVisible then [Ev.typeStopLoss] else [])
  else []

/-- Prod order-preview fee (lines 1116-1136):
`parseFloat(feeResult.text.replace(/[^0-9.-]/g, '')) || 0` when found. -/
def prodFee (env : PageEnv) : ℚ :=
  if env.isProd then
    match env.feePreview with
    | some t => jsOrC (jsParseFloat (keepNumChars t)) 0
    | none => 0
  else 0

/-- Prod `Send Order` confirmation click (lines 1142-1164). -/
def prodEvents (env : PageEnv) : List Ev :=
  if env.isProd then
    if env.sendOrderFound then [Ev.clickSendOrder] else []
  else []

/-! ## Reconciliation values (`src/tradingview.ts` lines 1378-1631) -/

/-- JS record read `rowData[key]` built by the cell `forEach` (lines
1409-1433); later duplicates of a `data-label` overwrite earlier ones. -/
def objGet (cells : List (String × String)) (k : String) : Option String :=
  ((cells.reverse).find? (fun kv => kv.1 == k)).map (fun kv => kv.2)

/-- `priceKeys` (line 1483). -/
def priceKeys : List String :=
  ["Avg Price", "Avg Fill Price", "Entry Price", "Price", "Avg. Fill"]

/-- The recovery scan (lines 1483-1494): first key whose cell text parses to
a value `> 0`; `entryPrice` stays 0 when none does. -/
def recoveryScan (cells : List (String × String)) : List String → JsNum
  | [] => some 0
  | k :: ks =>
    match objGet cells k with
    | some v =>
      if ¬ (v == "") then
        let parsed := jsParseFloat (keepDigitsDot v)
        if jsGt parsed (some 0) then parsed else recoveryScan cells ks
      else recoveryScan cells ks
    | none => recoveryScan cells ks

/-- Entry-price resolution (lines 1472-1495): primary selector text first,
then the fallback-chain text, then the row-data recovery scan. -/
def resolvedEntryPrice (env : PageEnv) : JsNum :=
  if strTruthy env.primaryAvgFillText then
    jsParseFloat (stripCommas (env.primaryAvgFillText.getD ""))
  else if strTruthy env.fallbackAvgFillText then
    jsParseFloat (keepDigitsDot (env.fallbackAvgFillText.getD ""))
  else recoveryScan env.positionRowCells priceKeys

/-- Filled-quantity override from the positions table (lines 1501-1517). -/
def reconciledQuantity (env : PageEnv) (actualQuantity : JsNum) : JsNum :=
  if strTruthy env.filledQtyText then
    jsParseFloat (stripCommas (env.filledQtyText.getD ""))
  else actualQuantity

def histMarginText (env : PageEnv) : Option String :=
  env.historyRow.bind (fun r => r.marginText)

/-- Margin override from order history, with the prod account-summary
tertiary source (lines 1575-1610). -/
def reconciledMargin (env : PageEnv) (marginAmount : JsNum) : JsNum :=
  if strTruthy (histMarginText env) then
    jsParseFloat (stripCommas ((histMarginText env).getD ""))
  else if env.isProd then
    if strTruthy env.summaryInitialMarginText then
      jsOr (jsParseFloat (stripCommas (env.summaryInitialMarginText.getD ""))) marginAmount
    else marginAmount
  else marginAmount

/-- Recency check on the first Market row of order history (lines 1612-1631):
its placing time, parsed as `new Date(t.replace(' ', 'T') + 'Z')`, must lie
within 60 seconds of `new Date()` taken at this reconciliation step. -/
def recentMarketOrder (env : PageEnv) : Bool :=
  match env.historyRow with
  | none => false
  | some row =>
    match row.placingTime with
    | none => false
    | some t =>
      if t == "" then false
      else
        match parseTvTime t with
        | none => false
        | some ms => decide ((env.nowMs - ms) / 1000 < 60)

/-- `params.symbol || "ETHUSDT"` (line 1693). -/
def resolvedSymbol (p : OrderParams) : String :=
  match p.symbol with
  | some s => if s == "" then "ETHUSDT" else s
  | none => "ETHUSDT"

/-- The `executionDetails` of the success return (lines 1690-1704). -/
def mkDetails (env : PageEnv) (p : OrderParams) (quantity marginUsed : JsNum)
    (fee : ℚ) : ExecutionDetails :=
  { symbol := resolvedSymbol p
    side := p.direction
    entryPrice := resolvedEntryPrice env
    quantity := quantity
    marginUsed := marginUsed
    fee := fee
    takeProfit := p.takeProfit
    stopLoss := p.stopLoss
    timestamp := env.timestampStr }

/-! ## Attempt outcomes and result construction -/

/-- The four in-`try` returns of `placeMarketOrder`
(`src/tradingview.ts` lines 707-711, 1331-1335, 1670-1674, 1690-1704). -/
inductive AttemptOutcome where
  | blocked (pos : PositionInfo)
  | rejected (rej : RejectionInfo)
  | reconcileFailed
  | filled (d : ExecutionDetails)
deriving DecidableEq, Repr

/-- Error text of the existing-position return (line 709). -/
def blockedMsg (pos : PositionInfo) : String :=
  "Existing position detected: " ++ pos.side ++ " " ++ pos.qty ++ " @ "
    ++ pos.avgPrice ++ " (P&L: " ++ pos.pnl
    ++ "). Close the existing position before placing a new order."

/-- Error text of the rejection return (lines 1289 and 1333). -/
def rejectedMsg (r : RejectionInfo) : String :=
  "Order rejected: " ++ r.header ++ " - " ++ r.orderInfo ++ ": " ++ r.reason

/-- Error text of the indeterminate-outcome return (line 1672). -/
def reconcileFailMsg : String :=
  "Order failed: No position created (entry price = 0) and no recent Market order in Order History. The order button was clicked but no order was placed."

/-- The `ExecutionResult` literal each in-`try` return constructs. -/
def outcomeToResult : AttemptOutcome → ExecutionResult
  | .blocked pos => { success := false, error := some (blockedMsg pos) }
  | .rejected r => { success := false, error := some (rejectedMsg r) }
  | .reconcileFailed => { success := false, error := some reconcileFailMsg }
  | .filled d => { success := true, executionDetails := some d }

/-- The catch-block failure result (line 1724). -/
def caughtResult (m : String) : ExecutionResult :=
  { success := false, error := some m }

/-- The failure returned when the page is still missing on the retry
(line 624). -/
def browserNotInitResult : ExecutionResult :=
  { success := false, error := some "Browser not initialized after restart" }

/-! ## Fault-gated step sequencing -/

/-- One interaction step: when `b` holds (the step is executed at all),
either raise the injected fault or append the step's interactions `evs` to
the trace `pre` and continue with `k`.  When `b` is false the step is skipped
entirely. -/
def condGate {α : Type} (env : PageEnv) (b : Bool) (s : Step) (evs pre : List Ev)
    (k : List Ev → Except String α × List Ev) : Except String α × List Ev :=
  if b then
    match env.faults s with
    | some e => (.error e, pre)
    | none => k (pre ++ evs)
  else k pre

/-- `totalWaitMs / pollIntervalMs` (lines 1222-1223): the poll loop runs at
most 5 ticks of 2000 ms inside the 10000 ms window. -/
def maxPolls : ℕ := 5

/-- The post-submission poll loop (lines 1228-1300): on each tick the
positions view is read (diagnostic only) and the rejection-toast scan runs;
the first toast found breaks the loop. -/
def pollLoop (env : PageEnv) (k fuel : ℕ) :
    Except String (Option RejectionInfo) × List Ev :=
  match fuel with
  | 0 => (.ok none, [])
  | fuel + 1 =>
    match env.faults (.pollPosition k) with
    | some e => (.error e, [Ev.pollTick k])
    | none =>
      match env.faults (.pollRejection k) with
      | some e => (.error e, [Ev.pollTick k])
      | none =>
        match env.rejectionAt k with
        | some r => (.ok (some r), [Ev.pollTick k])
        | none =>
          let rest := pollLoop env (k + 1) fuel
          (rest.1, Ev.pollTick k :: rest.2)

/-- Reconciliation tail (lines 1338-1704): diagnostics reads, quantity and
margin overrides, recency check, then the decisive classification — failure
(after the 10 s grace delay and a page reload) exactly when the entry price
resolved to 0 and no recent Market order exists, success otherwise. -/
def runReconcile (env : PageEnv) (p : OrderParams) (aq marginAmount : JsNum)
    (fee : ℚ) : Except String AttemptOutcome × List Ev :=
  condGate env true .resultsDiagnostics [] [] fun t1 =>
  condGate env true .readFilledQty [] t1 fun t2 =>
  condGate env true .readHistory [] t2 fun t3 =>
  condGate env (!(strTruthy (histMarginText env)) && env.isProd) .readSummary [] t3 fun t4 =>
  condGate env true .backToPositions [] t4 fun t5 =>
  if jsEqZero (resolvedEntryPrice env) && !(recentMarketOrder env) then
    condGate env true .reloadPage [Ev.reloadPage] t5 fun t6 =>
      (.ok .reconcileFailed, t6)
  else
    (.ok (.filled (mkDetails env p (reconciledQuantity env aq)
      (reconciledMargin env marginAmount) fee)), t5)

/-- Post-submission phase (lines 1168-1335): debug reads, the poll loop, the
final toast dump, then either the rejection return or reconciliation. -/
def runAfterSubmit (env : PageEnv) (p : OrderParams) (aq marginAmount : JsNum)
    (fee : ℚ) : Except String AttemptOutcome × List Ev :=
  condGate env true .postSubmitChecks [] [] fun t1 =>
  match pollLoop env 0 maxPolls with
  | (.error e, ptr) => (.error e, t1 ++ ptr)
  | (.ok rej, ptr) =>
    condGate env true .postWaitDump [] (t1 ++ ptr) fun t2 =>
    match rej with
    | some r => (.ok (.rejected r), t2)
    | none =>
      let rec2 := runReconcile env p aq marginAmount fee
      (rec2.1, t2 ++ rec2.2)

/-- Form phase (lines 815-1166): direction first, then order type, quantity,
optional TP and SL, submission, and the prod preview; returns the
`actualQuantity` and fee in scope afterwards. -/
def runForm (env : PageEnv) (p : OrderParams) (marginAmount autoContracts : JsNum) :
    Except String (JsNum × ℚ) × List Ev :=
  condGate env true .clickDirection [Ev.clickDirection] [] fun t1 =>
  condGate env true .clickMarketType [Ev.clickMarketType] t1 fun t2 =>
  condGate env true .setQuantity (enterQuantity env p marginAmount autoContracts).2 t2 fun t3 =>
  condGate env (tpRequested p) .setTakeProfit (tpEvents env p) t3 fun t4 =>
  condGate env (slRequested p) .setStopLoss (slEvents env p) t4 fun t5 =>
  condGate env true .clickPlace [Ev.clickPlaceOrder] t5 fun t6 =>
  condGate env env.isProd .prodPreview (prodEvents env) t6 fun t7 =>
  (.ok ((enterQuantity env p marginAmount autoContracts).1, prodFee env), t7)

/-- Form-through-reconciliation composition. -/
def runAttempt3 (env : PageEnv) (p : OrderParams) :
    Except String AttemptOutcome × List Ev :=
  let mc := sizedMarginContracts env p
  match runForm env p mc.1 mc.2 with
  | (.error e, tr) => (.error e, tr)
  | (.ok qf, tr) =>
    let post := runAfterSubmit env p qf.1 mc.1 qf.2
    (post.1, tr ++ post.2)

/-- Order-form opening and the auto-sizing reads (lines 716-813): the balance
read happens only in margin mode, the price read only in prod margin mode. -/
def runAttempt2 (env : PageEnv) (p : OrderParams) :
    Except String AttemptOutcome × List Ev :=
  condGate env true .openOrderForm [] [] fun _ =>
  if p.quantity < 0 then
    condGate env true .readBalance [] [] fun _ =>
    if env.isProd then
      condGate env true .readPrice [] [] fun _ => runAttempt3 env p
    else runAttempt3 env p
  else runAttempt3 env p

/-- One placement attempt: the body of `placeMarketOrder`'s `try` block
(lines 639-1704).  Connection assurance, promotion-modal dismissal and the
existing-position guard come first; a detected position row aborts before any
form interaction. -/
def runAttempt (env : PageEnv) (p : OrderParams) :
    Except String AttemptOutcome × List Ev :=
  condGate env true .ensureConnection [] [] fun _ =>
  condGate env true .dismissPromo [] [] fun _ =>
  condGate env true .positionCheck [] [] fun _ =>
  match env.existingPosition with
  | some pos => if 0 < pos.count then (.ok (.blocked pos), []) else runAttempt2 env p
  | none => runAttempt2 env p

/-! ## The retrying controller (`placeMarketOrder`, lines 612-1726)

The controller owns the page; a full browser restart swaps in a fresh page
environment.  `CtrlEnv` carries the environment of the first attempt, the
possible exception of `restartBrowser` itself (its `initialize()` call is not
guarded, lines 503-526), and the environment after a successful restart. -/

structure CtrlEnv where
  first : PageEnv
  restartFault : Option String := none
  second : PageEnv

/-- The connectivity-fault classifier of the catch block (lines 1710-1713,
same patterns as `validateConnection`, lines 459-462). -/
def isCDPError (msg : String) : Bool :=
  strIncludes msg "detached Frame" || strIncludes msg "Protocol error"
    || strIncludes msg "Target closed" || strIncludes msg "Session closed"

/-- `placeMarketOrder(params, true)` — the retry invocation.  On the retry a
missing page returns the `Browser not initialized after restart` failure
(line 624), and the catch block converts every exception into a failure
result without any further restart (`isCDPError && !isRetry` is false). -/
def retryCall (env2 : PageEnv) (p : OrderParams) :
    Except String ExecutionResult × List Ev :=
  if env2.hasPage then
    match runAttempt env2 p with
    | (.ok o, tr) => (.ok (outcomeToResult o), Ev.attemptStart true :: tr)
    | (.error m, tr) => (.ok (caughtResult m), Ev.attemptStart true :: tr)
  else (.ok browserNotInitResult, [Ev.attemptStart true])

/-- `placeMarketOrder(params)` — the first invocation (lines 612-1726).
With no page, restart and re-invoke once (lines 622-629; the restart call is
outside the `try`, so its exception propagates).  Otherwise run the attempt;
on a connectivity-fault exception restart and re-invoke once (the restart
inside the catch block also propagates its own exception); every other
exception becomes a failure result. -/
def placeMarketOrder (c : CtrlEnv) (p : OrderParams) :
    Except String ExecutionResult × List Ev :=
  if c.first.hasPage then
    match runAttempt c.first p with
    | (.ok o, tr) => (.ok (outcomeToResult o), Ev.attemptStart false :: tr)
    | (.error m, tr) =>
      if isCDPError m then
        match c.restartFault with
        | some m2 => (.error m2, Ev.attemptStart false :: tr)
        | none =>
          let r := retryCall c.second p
          (r.1, (Ev.attemptStart false :: tr) ++ Ev.restart :: r.2)
      else (.ok (caughtResult m), Ev.attemptStart false :: tr)
  else
    match c.restartFault with
    | some m2 => (.error m2, [Ev.attemptStart false])
    | none =>
      let r := retryCall c.second p
      (r.1, Ev.attemptStart false :: Ev.restart :: r.2)

/-- The existing-position guard condition (line 696). -/
def posBlockedB (env : PageEnv) : Bool :=
  match env.existingPosition with
  | some pos => decide (0 < pos.count)
  | none => false

/-! ## Reduction lemmas for the step gates and the poll loop -/

theorem condGate_none_true {α : Type} (env : PageEnv) (s : Step) (evs pre : List Ev)
    (k : List Ev → Except String α × List Ev) (h : env.faults s = none) :
    condGate env true s evs pre k = k (pre ++ evs) := by
  simp [condGate, h]

theorem condGate_none_nil {α : Type} (env : PageEnv) (b : Bool) (s : Step) (pre : List Ev)
    (k : List Ev → Except String α × List Ev) (h : env.faults s = none) :
    condGate env b s [] pre k = k pre := by
  cases b <;> simp [condGate, h]

theorem condGate_none_guarded {α : Type} (env : PageEnv) (b : Bool) (s : Step)
    (evs pre : List Ev) (k : List Ev → Except String α × List Ev)
    (h : env.faults s = none) (g : b = false → evs = []) :
    condGate env b s evs pre k = k (pre ++ evs) := by
  cases b
  · rw [g rfl]; simp [condGate]
  · simp [condGate, h]

/-- Membership preservation through a gate: every event of the resulting
trace satisfies `P` provided the prefix, the step events and the continuation
preserve `P`. -/
theorem condGate_mem {α : Type} (P : Ev → Prop) (env : PageEnv) (b : Bool) (s : Step)
    (evs pre : List Ev) (k : List Ev → Except String α × List Ev)
    (hpre : ∀ e ∈ pre, P e) (hevs : ∀ e ∈ evs, P e)
    (hk : ∀ l, (∀ e ∈ l, P e) → ∀ e ∈ (k l).2, P e) :
    ∀ e ∈ (condGate env b s evs pre k).2, P e := by
  unfold condGate
  cases b
  · exact hk pre hpre
  · simp only [Bool.false_eq_true, if_true]
    rcases h : env.faults s with _ | m
    · exact hk (pre ++ evs) (by
        intro e he
        rcases List.mem_append.mp he with h1 | h1
        · exact hpre e h1
        · exact hevs e h1)
    · exact hpre

/-- The poll-tick list `[pollTick i, …, pollTick (i+n-1)]`. -/
def pollTicks : ℕ → ℕ → List Ev
  | _, 0 => []
  | i, n + 1 => Ev.pollTick i :: pollTicks (i + 1) n

theorem pollTicks_mem : ∀ i n e, e ∈ pollTicks i n → isPollTickEv e = true := by
  intro i n
  induction n generalizing i with
  | zero => intro e he; simp [pollTicks] at he
  | succ m ih =>
    intro e he
    rcases List.mem_cons.mp he with h | h
    · subst h; rfl
    · exact ih (i + 1) e h

theorem pollTicks_countP (i n : ℕ) : (pollTicks i n).countP isPollTickEv = n := by
  induction n generalizing i with
  | zero => simp [pollTicks]
  | succ m ih => simp [pollTicks, List.countP_cons, ih, isPollTickEv]

/-- With no injected faults and no rejection toast, the poll loop runs all
its ticks and reports no rejection. -/
theorem pollLoop_none (env : PageEnv) (hf : env.faults = fun _ => none)
    (hr : ∀ k, env.rejectionAt k = none) :
    ∀ fuel i, pollLoop env i fuel = (.ok none, pollTicks i fuel) := by
  intro fuel
  induction fuel with
  | zero => intro i; simp [pollLoop, pollTicks]
  | succ n ih => intro i; simp [pollLoop, pollTicks, hf, hr, ih]

/-- With no injected faults and the first rejection toast appearing on tick
`k`, the poll loop stops on that tick and reports the rejection. -/
theorem pollLoop_firstRej (env : PageEnv) (hf : env.faults = fun _ => none)
    (k : ℕ) (r : RejectionInfo) (h : env.rejectionAt k = some r) :
    ∀ fuel i, i ≤ k → k < i + fuel →
      (∀ j, i ≤ j → j < k → env.rejectionAt j = none) →
      pollLoop env i fuel = (.ok (some r), pollTicks i (k + 1 - i)) := by
  intro fuel
  induction fuel with
  | zero => intro i h1 h2; omega
  | succ n ih =>
    intro i h1 h2 h3
    by_cases hik : i = k
    · subst hik
      have hone : i + 1 - i = 1 := by omega
      simp [pollLoop, hf, h, hone, pollTicks]
    · have hlt : i < k := lt_of_le_of_ne h1 hik
      have hni : env.rejectionAt i = none := h3 i le_rfl hlt
      have hsucc : k + 1 - i = (k + 1 - (i + 1)) + 1 := by omega
      rw [hsucc]
      simp only [pollLoop, hf, hni, pollTicks]
      rw [ih (i + 1) hlt (by omega) (fun j a b => h3 j (by omega) b)]

theorem pollLoop_trace_poll (env : PageEnv) :
    ∀ fuel i e, e ∈ (pollLoop env i fuel).2 → isPollTickEv e = true := by
  intro fuel
  induction fuel with
  | zero => intro i e he; simp [pollLoop] at he
  | succ n ih =>
    intro i e he
    unfold pollLoop at he
    rcases hf1 : env.faults (.pollPosition i) with _ | m <;> simp [hf1] at he
    · rcases hf2 : env.faults (.pollRejection i) with _ | m <;> simp [hf2] at he
      · rcases hr : env.rejectionAt i with _ | r <;> simp [hr] at he
        · rcases he with h | h
          · subst h; rfl
          · exact ih (i + 1) e h
        · subst he; rfl
      · subst he; rfl
    · subst he; rfl

/-! ## Classification of the events an attempt can produce -/

/-- Events an attempt body can emit (everything except the controller-level
`restart` / `attemptStart` markers). -/
def attemptLocal (e : Ev) : Prop :=
  isRestartEv e = false ∧ isStartEv e = false

theorem isFormEv_local : ∀ e, isFormEv e = true → attemptLocal e := by
  intro e h
  cases e <;> simp_all [isFormEv, attemptLocal, isRestartEv, isStartEv]

theorem isFormEv_not_poll : ∀ e, isFormEv e = true → isPollTickEv e = false := by
  intro e h
  cases e <;> simp_all [isFormEv, isPollTickEv]

theorem isPollTickEv_local : ∀ e, isPollTickEv e = true → attemptLocal e := by
  intro e h
  cases e <;> simp_all [isPollTickEv, attemptLocal, isRestartEv, isStartEv]

theorem enterQuantity_form (env : PageEnv) (p : OrderParams) (m a : JsNum) :
    ∀ e ∈ (enterQuantity env p m a).2, isFormEv e = true := by
  intro e he
  unfold enterQuantity at he
  split at he
  · split at he
    · simp at he; subst he; rfl
    · simp at he
  · split at he
    · simp at he
      obtain ⟨_, rfl⟩ := he
      rfl
    · split at he
      · split at he
        · simp at he; subst he; rfl
        · simp at he
      · simp at he

theorem tpEvents_form (env : PageEnv) (p : OrderParams) :
    ∀ e ∈ tpEvents env p, isFormEv e = true := by
  intro e he
  unfold tpEvents at he
  split at he
  · simp at he
    rcases he with ⟨_, rfl⟩ | ⟨_, rfl⟩ <;> rfl
  · simp at he

theorem slEvents_form (env : PageEnv) (p : OrderParams) :
    ∀ e ∈ slEvents env p, isFormEv e = true := by
  intro e he
  unfold slEvents at he
  split at he
  · simp at he
    rcases he with ⟨_, rfl⟩ | ⟨_, rfl⟩ <;> rfl
  · simp at he

theorem prodEvents_form (env : PageEnv) :
    ∀ e ∈ prodEvents env, isFormEv e = true := by
  intro e he
  unfold prodEvents at he
  split at he
  · split at he
    · simp at he; subst he; rfl
    · simp at he
  · simp at he

theorem runReconcile_local (env : PageEnv) (p : OrderParams) (aq m : JsNum) (fee : ℚ) :
    ∀ e ∈ (runReconcile env p aq m fee).2, attemptLocal e := by
  unfold runReconcile
  refine condGate_mem _ _ _ _ _ _ _ (by simp) (by simp) ?_
  intro t1 h1
  refine condGate_mem _ _ _ _ _ _ _ h1 (by simp) ?_
  intro t2 h2
  refine condGate_mem _ _ _ _ _ _ _ h2 (by simp) ?_
  intro t3 h3
  refine condGate_mem _ _ _ _ _ _ _ h3 (by simp) ?_
  intro t4 h4
  refine condGate_mem _ _ _ _ _ _ _ h4 (by simp) ?_
  intro t5 h5
  split
  · refine condGate_mem _ _ _ _ _ _ _ h5 ?_ ?_
    · intro e he
      simp at he
      subst he
      exact ⟨rfl, rfl⟩
    · intro t6 h6
      exact h6
  · exact h5

theorem runAfterSubmit_local (env : PageEnv) (p : OrderParams) (aq m : JsNum) (fee : ℚ) :
    ∀ e ∈ (runAfterSubmit env p aq m fee).2, attemptLocal e := by
  unfold runAfterSubmit
  refine condGate_mem _ _ _ _ _ _ _ (by simp) (by simp) ?_
  intro t1 h1
  rcases hp : pollLoop env 0 maxPolls with ⟨pr, ptr⟩
  have hptr : ∀ e ∈ ptr, attemptLocal e := by
    intro e he
    refine isPollTickEv_local e (pollLoop_trace_poll env maxPolls 0 e ?_)
    rw [hp]
    exact he
  have happ : ∀ e ∈ t1 ++ ptr, attemptLocal e := by
    intro e he
    rcases List.mem_append.mp he with h | h
    · exact h1 e h
    · exact hptr e h
  cases pr with
  | error m2 =>
    exact happ
  | ok rej =>
    refine condGate_mem _ _ _ _ _ _ _ happ (by simp) ?_
    intro t2 h2
    cases rej with
    | some r => exact h2
    | none =>
      intro e he
      rcases List.mem_append.mp he with h | h
      · exact h2 e h
      · exact runReconcile_local env p aq m fee e h

theorem runForm_local (env : PageEnv) (p : OrderParams) (m a : JsNum) :
    ∀ e ∈ (runForm env p m a).2, attemptLocal e := by
  unfold runForm
  refine condGate_mem _ _ _ _ _ _ _ (by simp) ?_ ?_
  · intro e he; simp at he; subst he; exact ⟨rfl, rfl⟩
  intro t1 h1
  refine condGate_mem _ _ _ _ _ _ _ h1 ?_ ?_
  · intro e he; simp at he; subst he; exact ⟨rfl, rfl⟩
  intro t2 h2
  refine condGate_mem _ _ _ _ _ _ _ h2 ?_ ?_
  · intro e he; exact isFormEv_local e (enterQuantity_form env p m a e he)
  intro t3 h3
  refine condGate_mem _ _ _ _ _ _ _ h3 ?_ ?_
  · intro e he; exact isFormEv_local e (tpEvents_form env p e he)
  intro t4 h4
  refine condGate_mem _ _ _ _ _ _ _ h4 ?_ ?_
  · intro e he; exact isFormEv_local e (slEvents_form env p e he)
  intro t5 h5
  refine condGate_mem _ _ _ _ _ _ _ h5 ?_ ?_
  · intro e he; simp at he; subst he; exact ⟨rfl, rfl⟩
  intro t6 h6
  refine condGate_mem _ _ _ _ _ _ _ h6 ?_ ?_
  · intro e he; exact isFormEv_local e (prodEvents_form env e he)
  intro t7 h7
  exact h7

theorem runAttempt3_local (env : PageEnv) (p : OrderParams) :
    ∀ e ∈ (runAttempt3 env p).2, attemptLocal e := by
  intro e he
  simp only [runAttempt3] at he
  rcases hf : runForm env p (sizedMarginContracts env p).1 (sizedMarginContracts env p).2
    with ⟨fr, tr⟩
  rw [hf] at he
  have htr : ∀ x ∈ tr, attemptLocal x := by
    intro x hx
    refine runForm_local env p (sizedMarginContracts env p).1 (sizedMarginContracts env p).2 x ?_
    rw [hf]
    exact hx
  cases fr with
  | error m2 =>
    simp only at he
    exact htr e he
  | ok qf =>
    simp only at he
    rcases List.mem_append.mp he with h | h
    · exact htr e h
    · exact runAfterSubmit_local env p _ _ _ e h

theorem runAttempt2_local (env : PageEnv) (p : OrderParams) :
    ∀ e ∈ (runAttempt2 env p).2, attemptLocal e := by
  unfold runAttempt2
  refine condGate_mem _ _ _ _ _ _ _ (by simp) (by simp) ?_
  intro t1 h1
  split
  · refine condGate_mem _ _ _ _ _ _ _ (by simp) (by simp) ?_
    intro t2 h2
    split
    · refine condGate_mem _ _ _ _ _ _ _ (by simp) (by simp) ?_
      intro t3 h3
      exact runAttempt3_local env p
    · exact runAttempt3_local env p
  · exact runAttempt3_local env p

theorem runAttempt_local (env : PageEnv) (p : OrderParams) :
    ∀ e ∈ (runAttempt env p).2, attemptLocal e := by
  unfold runAttempt
  refine condGate_mem _ _ _ _ _ _ _ (by simp) (by simp) ?_
  intro t1 h1
  refine condGate_mem _ _ _ _ _ _ _ (by simp) (by simp) ?_
  intro t2 h2
  refine condGate_mem _ _ _ _ _ _ _ (by simp) (by simp) ?_
  intro t3 h3
  intro e he
  rcases hep : env.existingPosition with _ | pos <;> rw [hep] at he
  · exact runAttempt2_local env p e he
  · by_cases hc : 0 < pos.count
    · simp [hc] at he
    · simp only [hc, if_false] at he
      exact runAttempt2_local env p e he

theorem runAttempt_countP_restart (env : PageEnv) (p : OrderParams) :
    ((runAttempt env p).2).countP isRestartEv = 0 := by
  refine List.countP_eq_zero.mpr ?_
  intro e he
  simp [(runAttempt_local env p e he).1]

theorem runAttempt_countP_start (env : PageEnv) (p : OrderParams) :
    ((runAttempt env p).2).countP isStartEv = 0 := by
  refine List.countP_eq_zero.mpr ?_
  intro e he
  simp [(runAttempt_local env p e he).2]

/-! ## No-fault normal forms -/

/-- The `actualQuantity` in scope at submission time. -/
def enteredQuantity (env : PageEnv) (p : OrderParams) : JsNum :=
  (enterQuantity env p (sizedMarginContracts env p).1 (sizedMarginContracts env p).2).1

/-- The interactions of a fault-free form phase, in source order. -/
def formTrace (env : PageEnv) (p : OrderParams) : List Ev :=
  Ev.clickDirection :: Ev.clickMarketType ::
    ((enterQuantity env p (sizedMarginContracts env p).1 (sizedMarginContracts env p).2).2
      ++ (tpEvents env p ++ (slEvents env p ++ (Ev.clickPlaceOrder :: prodEvents env))))

theorem runReconcile_noFault (env : PageEnv) (p : OrderParams) (aq m : JsNum) (fee : ℚ)
    (f : env.faults = fun _ => none) :
    runReconcile env p aq m fee =
      if jsEqZero (resolvedEntryPrice env) && !(recentMarketOrder env) then
        (.ok .reconcileFailed, [Ev.reloadPage])
      else
        (.ok (.filled (mkDetails env p (reconciledQuantity env aq)
          (reconciledMargin env m) fee)), []) := by
  unfold runReconcile
  simp only [condGate, f, List.append_nil, List.nil_append, if_true, Bool.if_true_left]
  split <;> simp

theorem runAfterSubmit_noFault_rej (env : PageEnv) (p : OrderParams) (aq m : JsNum)
    (fee : ℚ) (r : RejectionInfo) (ptr : List Ev)
    (f : env.faults = fun _ => none)
    (h : pollLoop env 0 maxPolls = (.ok (some r), ptr)) :
    runAfterSubmit env p aq m fee = (.ok (.rejected r), ptr) := by
  unfold runAfterSubmit
  simp only [condGate, f, h, List.nil_append, List.append_nil]
  simp

theorem runAfterSubmit_noFault_rec (env : PageEnv) (p : OrderParams) (aq m : JsNum)
    (fee : ℚ) (f : env.faults = fun _ => none)
    (h : ∀ k, env.rejectionAt k = none) :
    runAfterSubmit env p aq m fee =
      ((runReconcile env p aq m fee).1,
        pollTicks 0 maxPolls ++ (runReconcile env p aq m fee).2) := by
  unfold runAfterSubmit
  simp only [condGate, f, pollLoop_none env f h maxPolls 0, List.nil_append, List.append_nil]
  simp

theorem runAttempt_noFault (env : PageEnv) (p : OrderParams)
    (f : env.faults = fun _ => none) (b : posBlockedB env = false) :
    runAttempt env p =
      ((runAfterSubmit env p (enteredQuantity env p) (sizedMarginContracts env p).1
          (prodFee env)).1,
        formTrace env p
          ++ (runAfterSubmit env p (enteredQuantity env p) (sizedMarginContracts env p).1
                (prodFee env)).2) := by
  unfold posBlockedB at b
  unfold runAttempt runAttempt2 runAttempt3 runForm
  rcases hr : runAfterSubmit env p
      (enterQuantity env p (sizedMarginContracts env p).1 (sizedMarginContracts env p).2).1
      (sizedMarginContracts env p).1 (prodFee env) with ⟨pr, ptr⟩
  rcases hep : env.existingPosition with _ | pos
  · cases ht : tpRequested p <;> cases hs : slRequested p <;> cases hq : env.isProd <;>
      simp [condGate, f, ht, hs, hq, tpEvents, slEvents, prodEvents, enteredQuantity,
        formTrace, hr, List.append_assoc]
  · rw [hep] at b
    have bb := of_decide_eq_false b
    cases ht : tpRequested p <;> cases hs : slRequested p <;> cases hq : env.isProd <;>
      simp [condGate, f, bb, ht, hs, hq, tpEvents, slEvents, prodEvents, enteredQuantity,
        formTrace, hr, List.append_assoc]

/-- A fault-free run that detects a position row aborts before any form
interaction, with an empty trace. -/
theorem runAttempt_blocked (env : PageEnv) (p : OrderParams) (pos : PositionInfo)
    (h : env.faults .ensureConnection = none)
    (g : env.faults .dismissPromo = none)
    (i : env.faults .positionCheck = none)
    (j : env.existingPosition = some pos)
    (c : 0 < pos.count) :
    runAttempt env p = (.ok (.blocked pos), []) := by
  unfold runAttempt
  simp [condGate, h, g, i, j, c]

theorem formTrace_form (env : PageEnv) (p : OrderParams) :
    ∀ e ∈ formTrace env p, isFormEv e = true := by
  intro e he
  unfold formTrace at he
  simp only [List.mem_cons, List.mem_append] at he
  rcases he with rfl | rfl | h | h | h | rfl | h
  · rfl
  · rfl
  · exact enterQuantity_form env p _ _ e h
  · exact tpEvents_form env p e h
  · exact slEvents_form env p e h
  · rfl
  · exact prodEvents_form env e h

theorem formTrace_countP_poll (env : PageEnv) (p : OrderParams) :
    (formTrace env p).countP isPollTickEv = 0 := by
  refine List.countP_eq_zero.mpr ?_
  intro e he
  simp [isFormEv_not_poll e (formTrace_form env p e he)]

/-- Every in-`try` return satisfies the `executionDetails`-iff-`success`
shape. -/
theorem outcomeToResult_iff (o : AttemptOutcome) :
    (outcomeToResult o).executionDetails.isSome = (outcomeToResult o).success := by
  cases o <;> rfl

/-- Decidable check of the `executionDetails present iff success` invariant
on a run result. -/
def detailsIffSuccess (R : Except String ExecutionResult × List Ev) : Bool :=
  match R.1 with
  | .ok r => r.executionDetails.isSome == r.success
  | .error _ => true

theorem retryCall_iff (env2 : PageEnv) (p : OrderParams) :
    detailsIffSuccess (retryCall env2 p) = true := by
  unfold retryCall
  split
  · rcases h : runAttempt env2 p with ⟨res, tr⟩
    cases res with
    | ok o => simp [detailsIffSuccess, outcomeToResult_iff]
    | error m => rfl
  · rfl

/-! ## Claim theorems -/

/-- C1: for every order request, when a reachable position check detects an
existing open position row for the instrument (a non-null record, which in
the page always has a positive row count), `placeMarketOrder` returns
`success = false` with the error describing the blocking position
(`ExistingPositionError` semantics), and the run performs no order-form
interaction whatsoever — no direction click, no quantity/margin, take-profit
or stop-loss entry, and no submission — before returning. -/
theorem claim1_existing_position_guard (env c2 : PageEnv) (p : OrderParams)
    (pos : PositionInfo)
    (w : env.hasPage = true)
    (h : env.faults .ensureConnection = none)
    (g : env.faults .dismissPromo = none)
    (i : env.faults .positionCheck = none)
    (j : env.existingPosition = some pos)
    (c : 0 < pos.count) :
    (placeMarketOrder ⟨env, none, c2⟩ p).1 =
      .ok { success := false, error := some (blockedMsg pos), executionDetails := none } ∧
    ∀ e ∈ (placeMarketOrder ⟨env, none, c2⟩ p).2, isFormEv e = false := by
  have hra := runAttempt_blocked env p pos h g i j c
  unfold placeMarketOrder
  simp only [w, if_true, hra]
  refine ⟨rfl, ?_⟩
  intro e he
  simp at he
  subst he
  rfl

/-- C2: on a connectivity fault — an exception whose message matches the
detached-frame / protocol-error / target-closed / session-closed patterns —
raised during any step of a first-invocation attempt, and with the browser
restart itself completing, the controller performs exactly one full restart
followed by exactly one re-invocation of `placeMarketOrder`; a connectivity
fault during that retry terminates the call with `success = false` and the
raw error message, with no further restart or retry. -/
theorem claim2_connectivity_retry_policy (c : CtrlEnv) (p : OrderParams)
    (m1 m2 : String) (t1 t2 : List Ev)
    (w : c.first.hasPage = true)
    (v : c.second.hasPage = true)
    (r : c.restartFault = none)
    (e1 : runAttempt c.first p = (.error m1, t1))
    (d1 : isCDPError m1 = true)
    (e2 : runAttempt c.second p = (.error m2, t2))
    (d2 : isCDPError m2 = true) :
    (placeMarketOrder c p).1 =
      .ok { success := false, error := some m2, executionDetails := none } ∧
    ((placeMarketOrder c p).2).countP isRestartEv = 1 ∧
    ((placeMarketOrder c p).2).countP isStartEv = 2 := by
  have c1 : t1.countP isRestartEv = 0 := by
    have hx := runAttempt_countP_restart c.first p
    rwa [e1] at hx
  have c2r : t2.countP isRestartEv = 0 := by
    have hx := runAttempt_countP_restart c.second p
    rwa [e2] at hx
  have s1 : t1.countP isStartEv = 0 := by
    have hx := runAttempt_countP_start c.first p
    rwa [e1] at hx
  have s2 : t2.countP isStartEv = 0 := by
    have hx := runAttempt_countP_start c.second p
    rwa [e2] at hx
  unfold placeMarketOrder retryCall
  simp only [w, if_true, e1, d1, r, v, e2]
  refine ⟨rfl, ?_, ?_⟩ <;>
    simp [List.countP_append, List.countP_cons, c1, c2r, s1, s2,
      isRestartEv, isStartEv]

/-- C5 (amended): in paper-trading auto-size mode with the cap configured
(main profile), the computed usable margin equals
`min (⌊balance × 0.9 × 100⌋ / 100) 1000`; it is nonnegative whenever the
parsed balance is nonnegative (the unconditional nonnegativity of the claim
fails for a negative parsed balance); and for balance 10000 it is exactly the
cap 1000, not 9000. -/
theorem claim5_margin_formula (b : ℚ) :
    computeMarginPaper (some b) false = some (min (((⌊b * 0.90 * 100⌋ : ℤ) : ℚ) / 100) 1000) ∧
    (0 ≤ b → 0 ≤ ((computeMarginPaper (some b) false).getD 0)) ∧
    computeMarginPaper (some 10000) false = some 1000 := by
  have hmain : computeMarginPaper (some b) false
      = some (min (((⌊b * 0.90 * 100⌋ : ℤ) : ℚ) / 100) 1000) := by
    by_cases hc : (1000 : ℚ) < ((⌊b * 0.90 * 100⌋ : ℤ) : ℚ) / 100
    · simp [computeMarginPaper, jsMulC, jsFloorQ, jsDivC, jsGt, hc, min_eq_right hc.le]
    · simp [computeMarginPaper, jsMulC, jsFloorQ, jsDivC, jsGt, hc,
        min_eq_left (not_lt.mp hc)]
  refine ⟨hmain, ?_, by decide⟩
  intro hb
  rw [hmain]
  simp only [Option.getD_some]
  refine le_min ?_ (by norm_num)
  have hfl : (0 : ℤ) ≤ ⌊b * 0.90 * 100⌋ := by
    refine Int.le_floor.mpr ?_
    push_cast
    positivity
  positivity

/-- C5 counterexample: at parsed balance −100 the computed usable margin is
−90, refuting the claim's unconditional `≥ 0`. -/
theorem claim5_counterexample :
    computeMarginPaper (some (-100)) false = some (-90) ∧
    ¬ 0 ≤ ((computeMarginPaper (some (-100)) false).getD 0) := by decide

theorem claim5_witness :
    0 ≤ (10000 : ℚ) ∧ 0 ≤ ((computeMarginPaper (some 10000) false).getD 0) :=
  ⟨by norm_num, (claim5_margin_formula 10000).2.1 (by norm_num)⟩

/-- C7 (amended): when the liveness-cookie fast path fails and, after the
interactive form is driven without the unguarded waits throwing, neither the
captcha race nor the user-menu verification succeeds within its timeout,
`login` does not raise — it logs a warning and completes normally,
optimistically marking the session logged-in. -/
theorem claim7_login_optimistic (env : LoginEnv)
    (w : env.hasPage = true)
    (c : checkIfLoggedIn env = false)
    (f : env.loginFaults = fun _ => none)
    (r : env.captchaRaceWon = false)
    (m : env.userMenuAppears = false) :
    login env = .ok (true, LoginVia.optimistic) := by
  unfold login loginGate
  simp [w, c, f, r, m]

def c7Env : LoginEnv := {}

/-- C7 counterexample: with no liveness cookie, no captcha and a user menu
that never appears, `login` completes normally (`.ok`, optimistically
logged-in) instead of raising a `SessionError`. -/
theorem claim7_counterexample :
    checkIfLoggedIn c7Env = false ∧ c7Env.captchaPresent = false ∧
    c7Env.userMenuAppears = false ∧
    login c7Env = .ok (true, LoginVia.optimistic) := by decide

theorem claim7_witness :
    checkIfLoggedIn c7Env = false ∧ login c7Env = .ok (true, LoginVia.optimistic) :=
  ⟨by decide, claim7_login_optimistic c7Env rfl (by decide) rfl rfl rfl⟩

/-- C8: for every payload string, nonce string and endpoint path (and any
implementation of the Node crypto primitives), the signed-REST client's
`Authent` header is the base64 encoding of the HMAC-SHA512 digest, keyed by
the base64-decoded API secret, of the SHA-256 hash of the concatenation
`payload ++ nonce ++ path`; the `APIKey` and `Nonce` headers pass the key and
nonce through unchanged. -/
theorem claim8_auth_scheme
    (sha256 : String → List ℕ) (hmacSha512 : List ℕ → List ℕ → List ℕ)
    (base64Encode : List ℕ → String) (base64Decode : String → List ℕ)
    (apiKey apiSecret endpointPath postData nonce : String) :
    generateAuth sha256 hmacSha512 base64Encode base64Decode apiKey apiSecret
        endpointPath postData nonce =
      { APIKey := apiKey
        Authent := base64Encode (hmacSha512 (base64Decode apiSecret)
          (sha256 (postData ++ nonce ++ endpointPath)))
        Nonce := nonce } := rfl

/-- C9: `SYMBOL_MAP` has exactly the ten supported pairs; every input whose
ASCII-uppercased form is a key maps to the paired Kraken Futures symbol (the
mapping is case-insensitive), and every other input raises an error naming
the unknown symbol and listing the supported symbols. -/
theorem claim9_map_symbol :
    SYMBOL_MAP.length = 10 ∧
    (∀ s kv, kv ∈ SYMBOL_MAP → toUpperAscii s = kv.1 → mapSymbol s = .ok kv.2) ∧
    (∀ s, (∀ kv, kv ∈ SYMBOL_MAP → toUpperAscii s ≠ kv.1) →
      mapSymbol s = .error ("Unknown symbol: " ++ s ++ ". Supported: "
        ++ "BTCUSDT, ETHUSDT, SOLUSDT, XRPUSDT, DOGEUSDT, ADAUSDT, LINKUSDT, AVAXUSDT, MATICUSDT, DOTUSDT")) := by
  refine ⟨by decide, ?_, ?_⟩
  · intro s kv hm he
    have hs : toUpperAscii s = kv.1 := he
    unfold mapSymbol recordGet
    rw [hs]
    simp only [SYMBOL_MAP] at hm
    fin_cases hm <;> rfl
  · intro s hall
    have hfind : SYMBOL_MAP.find? (fun kv => kv.1 == toUpperAscii s) = none := by
      refine List.find?_eq_none.mpr ?_
      intro x hx
      simp only [Bool.not_eq_true, beq_eq_false_iff_ne, ne_eq]
      exact fun hh => hall x hx hh.symm
    unfold mapSymbol recordGet
    rw [hfind]
    rfl

theorem claim9_witness :
    ("ETHUSDT", "PF_ETHUSD") ∈ SYMBOL_MAP ∧ toUpperAscii "ethusdt" = "ETHUSDT" ∧
    mapSymbol "ethusdt" = .ok "PF_ETHUSD" ∧
    mapSymbol "foo" = .error "Unknown symbol: foo. Supported: BTCUSDT, ETHUSDT, SOLUSDT, XRPUSDT, DOGEUSDT, ADAUSDT, LINKUSDT, AVAXUSDT, MATICUSDT, DOTUSDT" :=
  ⟨by decide, by decide,
   claim9_map_symbol.2.1 "ethusdt" ("ETHUSDT", "PF_ETHUSD") (by decide) (by decide),
   claim9_map_symbol.2.2 "foo" (by decide)⟩

/-- C3: after submission and the poll window, a fault-free, unblocked and
rejection-free run of `placeMarketOrder` returns a failure — `success =
false` with the indeterminate-outcome error, a page reload performed after
the grace delay before returning — if and only if both the resolved entry
price equals 0 and no Market order within the 60-second recency window (as
checked against the clock at reconciliation, which follows submission by the
poll window) appears in order history; when such a recent Market order exists
but the entry price resolved to 0, the run returns success (with a logged
warning) instead of failing. -/
theorem claim3_reconciliation_classification (env c2 : PageEnv) (p : OrderParams)
    (w : env.hasPage = true)
    (f : env.faults = fun _ => none)
    (b : posBlockedB env = false)
    (g : ∀ k, env.rejectionAt k = none) :
    ∃ r : ExecutionResult,
      (placeMarketOrder ⟨env, none, c2⟩ p).1 = .ok r ∧
      (r.success = false ↔
        (jsEqZero (resolvedEntryPrice env) = true ∧ recentMarketOrder env = false)) ∧
      (r.success = false →
        r = { success := false, error := some reconcileFailMsg, executionDetails := none } ∧
        Ev.reloadPage ∈ (placeMarketOrder ⟨env, none, c2⟩ p).2) ∧
      ((jsEqZero (resolvedEntryPrice env) = true ∧ recentMarketOrder env = true) →
        r.success = true) := by
  have hras := runAttempt_noFault env p f b
  rw [runAfterSubmit_noFault_rec env p (enteredQuantity env p)
    (sizedMarginContracts env p).1 (prodFee env) f g] at hras
  rw [runReconcile_noFault env p (enteredQuantity env p)
    (sizedMarginContracts env p).1 (prodFee env) f] at hras
  by_cases hc : (jsEqZero (resolvedEntryPrice env) && !(recentMarketOrder env)) = true
  · obtain ⟨hz, hrec⟩ : jsEqZero (resolvedEntryPrice env) = true ∧
        recentMarketOrder env = false := by
      simpa [Bool.and_eq_true, Bool.not_eq_true'] using hc
    simp only [hc, if_true] at hras
    refine ⟨{ success := false, error := some reconcileFailMsg, executionDetails := none },
      ?_, ?_, ?_, ?_⟩
    · unfold placeMarketOrder
      simp [w, hras, outcomeToResult]
    · simp [hz, hrec]
    · intro hs
      refine ⟨rfl, ?_⟩
      unfold placeMarketOrder
      simp [w, hras]
    · intro hcontra
      rw [hrec] at hcontra
      simp at hcontra
  · have hcf : (jsEqZero (resolvedEntryPrice env) && !(recentMarketOrder env)) = false :=
      Bool.not_eq_true _ ▸ (Bool.eq_false_iff.mpr hc)
    simp only [hcf, Bool.false_eq_true, if_false] at hras
    refine ⟨outcomeToResult (.filled (mkDetails env p
      (reconciledQuantity env (enteredQuantity env p))
      (reconciledMargin env (sizedMarginContracts env p).1) (prodFee env))), ?_, ?_, ?_, ?_⟩
    · unfold placeMarketOrder
      simp [w, hras]
    · constructor
      · intro hs
        simp [outcomeToResult] at hs
      · intro ⟨h1, h2⟩
        exfalso
        apply hc
        simp [Bool.and_eq_true, Bool.not_eq_true', h1, h2]
    · intro hs
      simp [outcomeToResult] at hs
    · intro _
      rfl

/-- C4: during the bounded post-submission poll window every tick scans for a
rejection toast; the first tick on which one is detected (here tick `k` of
the at most `maxPolls` ticks) short-circuits the loop — exactly `k + 1` poll
ticks run — and `placeMarketOrder` returns `success = false` with the
rejection's header, order info and reason captured in the error, regardless
of what the positions view shows (the environment's position rows are
unconstrained). -/
theorem claim4_rejection_short_circuit (env c2 : PageEnv) (p : OrderParams) (k : ℕ)
    (r : RejectionInfo)
    (w : env.hasPage = true)
    (f : env.faults = fun _ => none)
    (b : posBlockedB env = false)
    (o : k < maxPolls)
    (h : env.rejectionAt k = some r)
    (g : ∀ j, j < k → env.rejectionAt j = none) :
    (placeMarketOrder ⟨env, none, c2⟩ p).1 =
      .ok { success := false, error := some (rejectedMsg r), executionDetails := none } ∧
    ((placeMarketOrder ⟨env, none, c2⟩ p).2).countP isPollTickEv = k + 1 := by
  have hpl : pollLoop env 0 maxPolls = (.ok (some r), pollTicks 0 (k + 1)) := by
    have hx := pollLoop_firstRej env f k r h maxPolls 0 (Nat.zero_le k) (by omega)
      (fun j h1 h2 => g j h2)
    simpa using hx
  have hras := runAttempt_noFault env p f b
  rw [runAfterSubmit_noFault_rej env p (enteredQuantity env p)
    (sizedMarginContracts env p).1 (prodFee env) r (pollTicks 0 (k + 1)) f hpl] at hras
  simp only at hras
  unfold placeMarketOrder
  simp only [w, if_true, hras]
  constructor
  · simp [outcomeToResult]
  · simp [List.countP_cons, List.countP_append, formTrace_countP_poll, pollTicks_countP,
      isPollTickEv]

/-- C6: for every run of `placeMarketOrder`, whenever it returns an
`ExecutionResult` (rather than propagating a restart exception), that result
carries `executionDetails` exactly when `success` is true: the
existing-position, rejection, indeterminate-outcome, caught-exception and
uninitialized-browser failures all omit it, and the success path always
populates it. -/
theorem claim6_details_iff_success (c : CtrlEnv) (p : OrderParams) :
    detailsIffSuccess (placeMarketOrder c p) = true := by
  unfold placeMarketOrder
  split
  · split
    · simp [detailsIffSuccess, outcomeToResult_iff]
    · split
      · split
        · rfl
        · exact retryCall_iff c.second p
      · rfl
  · split
    · rfl
    · exact retryCall_iff c.second p

/-- C10 (amended): every exception raised inside the placement attempt's
try-block is caught and converted into a failure `ExecutionResult` — on the
first invocation non-connectivity faults are converted directly, and on the
retry every fault is converted — but an exception raised by `restartBrowser`
itself (its `initialize()` call is unguarded) propagates, so `placeMarketOrder`
is not unconditionally throw-free; when called with no initialized page and a
succeeding restart it restarts the browser and retries exactly once, and if
the page is still uninitialized on the retry it returns `success = false`
with the error `Browser not initialized after restart`. -/
theorem claim10_exception_conversion (c : CtrlEnv) (p : OrderParams) :
    (c.first.hasPage = false → c.restartFault = none → c.second.hasPage = false →
      placeMarketOrder c p =
        (.ok browserNotInitResult, [Ev.attemptStart false, Ev.restart, Ev.attemptStart true])) ∧
    (∀ m t, c.first.hasPage = true → runAttempt c.first p = (.error m, t) →
      isCDPError m = false → (placeMarketOrder c p).1 = .ok (caughtResult m)) ∧
    (∀ e2 m t, e2.hasPage = true → runAttempt e2 p = (.error m, t) →
      (retryCall e2 p).1 = .ok (caughtResult m)) := by
  refine ⟨?_, ?_, ?_⟩
  · intro h1 h2 h3
    unfold placeMarketOrder retryCall
    simp [h1, h2, h3]
  · intro m t h1 h2 h3
    unfold placeMarketOrder
    simp [h1, h2, h3]
  · intro e2 m t h1 h2
    unfold retryCall
    simp [h1, h2]

/-! ## Concrete environments for witnesses and counterexamples -/

def cexParams : OrderParams :=
  { direction := .LONG, quantity := 1, stopLoss := some 3000, takeProfit := some 3500 }

def w1Pos : PositionInfo :=
  { count := 1, rowId := "BYBIT:ETHUSDT.P", symbol := "ETHUSDT", side := "Long",
    qty := "2", avgPrice := "3000", pnl := "+5.1" }

def w1Env : PageEnv := { existingPosition := some w1Pos }

theorem claim1_witness :
    0 < w1Pos.count ∧
    (placeMarketOrder ⟨w1Env, none, w1Env⟩ cexParams).1 =
      .ok { success := false, error := some (blockedMsg w1Pos), executionDetails := none } :=
  ⟨by decide, (claim1_existing_position_guard w1Env w1Env cexParams w1Pos rfl rfl rfl rfl
    rfl (by decide)).1⟩

def w2Env : PageEnv :=
  { faults := fun s =>
      if s = Step.clickDirection then some "Protocol error (Connection closed)" else none }

theorem claim2_witness :
    isCDPError "Protocol error (Connection closed)" = true ∧
    (placeMarketOrder ⟨w2Env, none, w2Env⟩ cexParams).1 =
      .ok { success := false, error := some "Protocol error (Connection closed)",
            executionDetails := none } ∧
    ((placeMarketOrder ⟨w2Env, none, w2Env⟩ cexParams).2).countP isRestartEv = 1 ∧
    ((placeMarketOrder ⟨w2Env, none, w2Env⟩ cexParams).2).countP isStartEv = 2 := by
  have hcd : isCDPError "Protocol error (Connection closed)" = true := by decide
  have hra : runAttempt w2Env cexParams =
      (.error "Protocol error (Connection closed)", []) := by decide
  obtain ⟨h1, h2, h3⟩ := claim2_connectivity_retry_policy ⟨w2Env, none, w2Env⟩ cexParams
    "Protocol error (Connection closed)" "Protocol error (Connection closed)" [] []
    rfl rfl rfl hra hcd hra hcd
  exact ⟨hcd, h1, h2, h3⟩

def w3Env : PageEnv := {}

theorem claim3_witness :
    jsEqZero (resolvedEntryPrice w3Env) = true ∧ recentMarketOrder w3Env = false ∧
    (placeMarketOrder ⟨w3Env, none, w3Env⟩ cexParams).1 =
      .ok { success := false, error := some reconcileFailMsg, executionDetails := none } ∧
    Ev.reloadPage ∈ (placeMarketOrder ⟨w3Env, none, w3Env⟩ cexParams).2 := by
  obtain ⟨r, h1, h2, h3, h4⟩ := claim3_reconciliation_classification w3Env w3Env cexParams
    rfl rfl rfl (fun k => rfl)
  have hz : jsEqZero (resolvedEntryPrice w3Env) = true := by decide
  have hrec : recentMarketOrder w3Env = false := by decide
  have hs : r.success = false := h2.mpr ⟨hz, hrec⟩
  obtain ⟨he, hm⟩ := h3 hs
  refine ⟨hz, hrec, ?_, hm⟩
  rw [h1, he]

def w4Rej : RejectionInfo :=
  { header := "Order rejected", orderInfo := "Buy 1 ETHUSDT", reason := "Insufficient funds",
    symbol := "ETHUSDT" }

def w4Env : PageEnv := { rejectionAt := fun k => if k = 2 then some w4Rej else none }

theorem claim4_witness :
    (placeMarketOrder ⟨w4Env, none, w4Env⟩ cexParams).1 =
      .ok { success := false, error := some (rejectedMsg w4Rej), executionDetails := none } ∧
    ((placeMarketOrder ⟨w4Env, none, w4Env⟩ cexParams).2).countP isPollTickEv = 3 :=
  claim4_rejection_short_circuit w4Env w4Env cexParams 2 w4Rej rfl rfl rfl (by decide)
    (by decide) (fun j hj => by interval_cases j <;> rfl)

def c10Env : CtrlEnv :=
  { first := { hasPage := false }, restartFault := some "Failed to launch the browser process",
    second := { hasPage := false } }

/-- C10 counterexample: with no initialized page and `restartBrowser` itself
throwing, `placeMarketOrder` propagates the exception instead of returning an
`ExecutionResult`, so the claimed unconditional `never throws` fails on the
code. -/
theorem claim10_counterexample :
    (placeMarketOrder c10Env cexParams).1 = .error "Failed to launch the browser process" := rfl

def c10okEnv : CtrlEnv := { first := { hasPage := false }, second := { hasPage := false } }

theorem claim10_witness :
    placeMarketOrder c10okEnv cexParams =
      (.ok browserNotInitResult, [Ev.attemptStart false, Ev.restart, Ev.attemptStart true]) :=
  (claim10_exception_conversion c10okEnv cexParams).1 rfl rfl rfl

end Executor
